import Mathlib

/-!
Verification of the NASA-challenge forecasting backend.

Shallow embedding of the core subsystems of the repository:
* `daysFromCivil` — calendar dates as day numbers (proleptic Gregorian),
  modelling Python `datetime.date` arithmetic;
* the lunar-phase model of `arima_predict_merged.py`
  (`lunar_phase_fraction`, `nearest_label_from_training`);
* the coordinate resolver of `test.py` (`haversine`, `find_existing`);
* the coordinate token and dataset cache of `data_pipeline.py`
  (`coord_token`, `ensure_dataset`);
* horizon arithmetic and the CLI horizon resolution of
  `arima_predict_merged.py` (`compute_asof_and_horizon`, `resolve_horizon`);
* the forecast-table construction of `arima_predict_merged.py`
  (`future_index`, `build_future_labels`, `run_forecast`);
* an orchestrator model for `main_fishing.py`.

Python floats are modelled as exact rationals (`ℚ`), except for the
trigonometric haversine distance, which is modelled over `ℝ`.
-/

namespace NasaChallenge

/-! Section: Calendar dates

Python `datetime.date` values are embedded as day numbers via the standard
days-from-civil algorithm (days since 1970-01-01, proleptic Gregorian).
`date` subtraction `(a - b).days` becomes integer subtraction of day numbers,
and `a - timedelta(days=k)` becomes `daysFromCivil a - k`. -/

structure CivilDate where
  year : Int
  month : Int
  day : Int
deriving DecidableEq

/-- Day number of a Gregorian calendar date (0 = 1970-01-01). -/
def daysFromCivil (dt : CivilDate) : Int :=
  let y : Int := if dt.month ≤ 2 then dt.year - 1 else dt.year
  let era : Int := (if 0 ≤ y then y else y - 399) / 400
  let yoe : Int := y - era * 400
  let mp : Int := (dt.month + 9) % 12
  let doy : Int := (153 * mp + 2) / 5 + dt.day - 1
  let doe : Int := yoe * 365 + yoe / 4 - yoe / 100 + doy
  era * 146097 + doe - 719468

/-! Section: Lunar-phase model (`arima_predict_merged.py`) -/

/-- Constant `SYNODIC_MONTH = 29.53058867` (days). -/
def SYNODIC_MONTH : ℚ := 29.53058867

/-- Table `CANON_FRAC`: canonical fraction-of-cycle anchor per label, in the
source's enumeration order. -/
def CANON_FRAC : List (String × ℚ) :=
  [("New Moon", 0.00),
   ("First Quarter", 0.25),
   ("Full Moon", 0.50),
   ("Last Quarter", 0.75),
   ("Waning", 0.81),
   ("Waxing", 0.31)]

/-- Python's `%` on floats (sign of the divisor), over `ℚ`. -/
def pymod (a b : ℚ) : ℚ := a - b * ⌊a / b⌋

/-- Day number of the fixed epoch `pd.Timestamp("2000-01-06")`. -/
def epochDay : Int := daysFromCivil ⟨2000, 1, 6⟩

/-- Function `lunar_phase_fraction`: the date is embedded as its day number `d`
(`d.normalize() - epoch).days` = `d - epochDay`). -/
def lunar_phase_fraction (d : Int) : ℚ :=
  pymod (((d - epochDay : Int) : ℚ) + 0.5) SYNODIC_MONTH / SYNODIC_MONTH

/-- Python's built-in `abs` on floats, over `ℚ`. -/
def pyabs (x : ℚ) : ℚ := if x < 0 then -x else x

/-- Python's built-in binary `min` on floats, over `ℚ`. -/
def pymin (a b : ℚ) : ℚ := if a ≤ b then a else b

/-- Circular distance `min(|frac - f|, 1 - |frac - f|)` used in
`nearest_label_from_training`. -/
def circDist (frac f : ℚ) : ℚ := pymin (pyabs (frac - f)) (1 - pyabs (frac - f))

/-- The `for lab, f in candidates.items()` loop of
`nearest_label_from_training`: keeps the first strict improvement. -/
def nearestLoop (frac : ℚ) : List (String × ℚ) → Option String → ℚ → Option String
  | [], best, _ => best
  | (lab, f) :: rest, best, bestDist =>
    if circDist frac f < bestDist then nearestLoop frac rest (some lab) (circDist frac f)
    else nearestLoop frac rest best bestDist

/-- Function `nearest_label_from_training(frac, allowed_labels)`:
candidates are the canonical table restricted to `allowed_labels`
(dict comprehension keeps the table's enumeration order);
empty candidates default to `"New Moon"`.  The Python loop returns
`best_label` (an `Option`; `none` is unreachable for non-empty candidates,
modelled by `getD`). -/
def nearest_label_from_training (frac : ℚ) (allowed : List String) : String :=
  let candidates := CANON_FRAC.filter (fun p => allowed.contains p.1)
  if candidates.isEmpty then "New Moon"
  else (nearestLoop frac candidates none 1000000000).getD "New Moon"

/-! Subsection: Helper lemmas: `pymod` and `circDist` -/

lemma pymod_eq_fract (a b : ℚ) (hb : b ≠ 0) : pymod a b = b * Int.fract (a / b) := by
  unfold pymod Int.fract
  field_simp

lemma pymod_div_self (a b : ℚ) (hb : 0 < b) : pymod a b / b = Int.fract (a / b) := by
  rw [pymod_eq_fract a b hb.ne.symm, mul_comm]
  exact mul_div_cancel_right₀ _ hb.ne.symm

lemma pymod_div_nonneg (a b : ℚ) (hb : 0 < b) : 0 ≤ pymod a b / b := by
  rw [pymod_div_self a b hb]; exact Int.fract_nonneg _

lemma pymod_div_lt_one (a b : ℚ) (hb : 0 < b) : pymod a b / b < 1 := by
  rw [pymod_div_self a b hb]; exact Int.fract_lt_one _

lemma SYNODIC_MONTH_pos : (0 : ℚ) < SYNODIC_MONTH := by norm_num [SYNODIC_MONTH]

lemma circDist_le_half (frac f : ℚ) : circDist frac f ≤ 1 / 2 := by
  unfold circDist pymin pyabs
  split_ifs <;> linarith

/-! Subsection: Helper lemmas: the nearest-label loop -/

lemma nearestLoop_of_forall_le (frac : ℚ) :
    ∀ (l : List (String × ℚ)) (best : Option String) (B : ℚ),
    (∀ p ∈ l, B ≤ circDist frac p.2) → nearestLoop frac l best B = best := by
  intro l
  induction l with
  | nil => intro best B _; rfl
  | cons hd tl ih =>
    intro best B hle
    obtain ⟨lab, f⟩ := hd
    have h1 : B ≤ circDist frac f := hle (lab, f) (List.mem_cons_self _ _)
    simp only [nearestLoop, if_neg (not_lt.mpr h1)]
    exact ih best B fun p hp => hle p (List.mem_cons_of_mem _ hp)

lemma nearestLoop_first_min (frac : ℚ) :
    ∀ (l : List (String × ℚ)) (best : Option String) (B : ℚ),
    (∃ p ∈ l, circDist frac p.2 < B) →
    ∃ pre p post, l = pre ++ p :: post ∧
      nearestLoop frac l best B = some p.1 ∧
      circDist frac p.2 < B ∧
      (∀ q ∈ pre, circDist frac p.2 < circDist frac q.2) ∧
      (∀ q ∈ post, circDist frac p.2 ≤ circDist frac q.2) := by
  intro l
  induction l with
  | nil => intro best B h; simp at h
  | cons hd tl ih =>
    intro best B hex
    obtain ⟨lab, f⟩ := hd
    by_cases hhd : circDist frac f < B
    · by_cases htl : ∃ q ∈ tl, circDist frac q.2 < circDist frac f
      · obtain ⟨pre, p, post, heq, hres, hlt, hpre, hpost⟩ := ih (some lab) (circDist frac f) htl
        refine ⟨(lab, f) :: pre, p, post, by rw [heq]; rfl, ?_, lt_trans hlt hhd, ?_, hpost⟩
        · simp only [nearestLoop, if_pos hhd]; exact hres
        · intro q hq
          rcases List.mem_cons.mp hq with hq1 | hq2
          · rw [hq1]; exact hlt
          · exact hpre q hq2
      · push_neg at htl
        refine ⟨[], (lab, f), tl, rfl, ?_, hhd, by simp, htl⟩
        simp only [nearestLoop, if_pos hhd]
        exact nearestLoop_of_forall_le frac tl (some lab) (circDist frac f) htl
    · push_neg at hhd
      have htl : ∃ q ∈ tl, circDist frac q.2 < B := by
        obtain ⟨p, hp, hlt⟩ := hex
        rcases List.mem_cons.mp hp with hp1 | hp2
        · exact absurd hlt (by rw [hp1]; exact not_lt.mpr hhd)
        · exact ⟨p, hp2, hlt⟩
      obtain ⟨pre, p, post, heq, hres, hlt, hpre, hpost⟩ := ih best B htl
      refine ⟨(lab, f) :: pre, p, post, by rw [heq]; rfl, ?_, hlt, ?_, hpost⟩
      · simp only [nearestLoop, if_neg (not_lt.mpr hhd)]; exact hres
      · intro q hq
        rcases List.mem_cons.mp hq with hq1 | hq2
        · rw [hq1]; exact lt_of_lt_of_le hlt hhd
        · exact hpre q hq2

/-- Characterization of `nearest_label_from_training` when at least one
canonical label is allowed: the result is the first candidate (in the
canonical table's enumeration order) minimizing the circular distance. -/
lemma nearest_label_first_min (frac : ℚ) (allowed : List String)
    (hne : CANON_FRAC.filter (fun p => allowed.contains p.1) ≠ []) :
    ∃ pre p post, CANON_FRAC.filter (fun p => allowed.contains p.1) = pre ++ p :: post ∧
      nearest_label_from_training frac allowed = p.1 ∧
      (∀ q ∈ pre, circDist frac p.2 < circDist frac q.2) ∧
      (∀ q ∈ post, circDist frac p.2 ≤ circDist frac q.2) := by
  set cands := CANON_FRAC.filter (fun p => allowed.contains p.1) with hcands
  obtain ⟨c, hc⟩ := List.exists_mem_of_ne_nil cands hne
  have hex : ∃ p ∈ cands, circDist frac p.2 < 1000000000 :=
    ⟨c, hc, lt_of_le_of_lt (circDist_le_half frac c.2) (by norm_num)⟩
  obtain ⟨pre, p, post, heq, hres, _, hpre, hpost⟩ :=
    nearestLoop_first_min frac cands none 1000000000 hex
  refine ⟨pre, p, post, heq, ?_, hpre, hpost⟩
  unfold nearest_label_from_training
  rw [← hcands, if_neg (by simp [List.isEmpty_iff, hne]), hres]
  rfl

/-- Membership: with a non-empty allowed set of canonical labels, the
returned label is a member of the allowed set. -/
lemma nearest_label_mem (frac : ℚ) (allowed : List String) (hne : allowed ≠ [])
    (hsub : ∀ a ∈ allowed, a ∈ CANON_FRAC.map Prod.fst) :
    nearest_label_from_training frac allowed ∈ allowed := by
  obtain ⟨a, ha⟩ := List.exists_mem_of_ne_nil allowed hne
  obtain ⟨p, hp, hpa⟩ := List.mem_map.mp (hsub a ha)
  have hpc : p ∈ CANON_FRAC.filter (fun q => allowed.contains q.1) :=
    List.mem_filter.mpr ⟨hp, List.elem_eq_true_of_mem (hpa ▸ ha)⟩
  obtain ⟨pre, q, post, heq, hres, _, _⟩ :=
    nearest_label_first_min frac allowed (List.ne_nil_of_mem hpc)
  have hqmem : q ∈ CANON_FRAC.filter (fun r => allowed.contains r.1) := by
    rw [heq]; exact List.mem_append_right _ (List.mem_cons_self _ _)
  rw [hres]
  exact List.mem_of_elem_eq_true (List.mem_filter.mp hqmem).2

end NasaChallenge

namespace NasaChallenge

/-!
## Claim theorems C4 and C5
-/

/-- Claim C4: For every calendar date (embedded as its day number `d`),
`lunar_phase_fraction d` equals `((d − epoch) + 0.5 mod 29.53058867) /
29.53058867` for the fixed epoch 2000-01-06, and this value always lies in
the half-open interval `[0, 1)`. -/
theorem phase_fraction_formula_and_range (d : Int) :
    lunar_phase_fraction d
      = pymod (((d - epochDay : Int) : ℚ) + 0.5) SYNODIC_MONTH / SYNODIC_MONTH
    ∧ 0 ≤ lunar_phase_fraction d ∧ lunar_phase_fraction d < 1 :=
  ⟨rfl,
   pymod_div_nonneg _ _ SYNODIC_MONTH_pos,
   pymod_div_lt_one _ _ SYNODIC_MONTH_pos⟩

/-- Claim C5: For every fraction in `[0,1)` and every set of (canonical)
allowed labels: if the allowed set is empty the function returns
`"New Moon"`; if it is non-empty, the function returns a member of the
allowed set, namely the first entry (in the enumeration order of the
canonical table, which breaks ties) of the allowed-restricted canonical
table minimizing the circular distance `min(|f−a|, 1−|f−a|)`. -/
theorem nearest_label_minimizes (frac : ℚ) (allowed : List String)
    (hfrac0 : 0 ≤ frac) (hfrac1 : frac < 1) :
    (allowed = [] → nearest_label_from_training frac allowed = "New Moon")
    ∧ (allowed ≠ [] → (∀ a ∈ allowed, a ∈ CANON_FRAC.map Prod.fst) →
        nearest_label_from_training frac allowed ∈ allowed
        ∧ ∃ pre p post,
            CANON_FRAC.filter (fun q => allowed.contains q.1) = pre ++ p :: post
            ∧ nearest_label_from_training frac allowed = p.1
            ∧ (∀ q ∈ pre, circDist frac p.2 < circDist frac q.2)
            ∧ (∀ q ∈ post, circDist frac p.2 ≤ circDist frac q.2)) := by
  constructor
  · intro h
    subst h
    rfl
  · intro hne hsub
    refine ⟨nearest_label_mem frac allowed hne hsub, ?_⟩
    obtain ⟨a, ha⟩ := List.exists_mem_of_ne_nil allowed hne
    obtain ⟨p, hp, hpa⟩ := List.mem_map.mp (hsub a ha)
    have hpc : p ∈ CANON_FRAC.filter (fun q => allowed.contains q.1) :=
      List.mem_filter.mpr ⟨hp, List.elem_eq_true_of_mem (hpa ▸ ha)⟩
    obtain ⟨pre, q, post, heq, hres, hpre, hpost⟩ :=
      nearest_label_first_min frac allowed (List.ne_nil_of_mem hpc)
    exact ⟨pre, q, post, heq, hres, hpre, hpost⟩

/-! Section: Forecast engine (`arima_predict_merged.py`, `main`)

The engine is embedded at the level the shape claims live at: the input
series is the (date, moon_phase) part of the merged CSV (dates as day
numbers, already parsed/sorted/daily as the claim's "daily historical
series" requires), the numeric per-target SARIMAX point forecast
`res.get_forecast(...).predicted_mean` is an abstract function
`pred : target → date → ℚ` (its values do not enter the claims). -/

/-- Constant `TARGETS` of `arima_predict_merged.py`. -/
def TARGETS : List String :=
  ["air_temp_C", "pressure_kPa", "wind_speed_m_s", "estimated_water_temp_C"]

/-- Future index `pd.date_range(start=df.index[-1] + step, periods=horizon, freq=freq)`
for the daily frequency: `horizon` consecutive days starting one day after
the last historical date. -/
def future_index (lastDate : Int) (horizon : ℕ) : List Int :=
  (List.range horizon).map (fun i : ℕ => lastDate + 1 + (i : Int))

/-- Function `build_future_exog`, label sequence: for each future date, the nearest
canonical label restricted to the categories observed in the training
`moon_phase` column.  Pandas `cat.categories` is the sorted deduplication
of the observed labels; only membership in it is ever consulted
(`allowed_labels` is used via `in`), so it is embedded as `dedup`. -/
def build_future_moon (trainMoon : List String) (idx : List Int) : List String :=
  idx.map (fun d => nearest_label_from_training (lunar_phase_fraction d) trainMoon.dedup)

/-- The forecast output table of `main`: columns `date`, `moon_phase`, and
one column per present target; one row per future date. -/
structure ForecastTable where
  cols : List String
  dates : List Int
  moonLabels : List String
  values : List (String × List ℚ)

/-- The forecast-building part of `main` (lines 241–289): present targets,
future index, future moon labels, and the per-target forecast columns. -/
def run_forecast (pred : String → Int → ℚ) (inputCols : List String)
    (series : List (Int × String)) (horizon : ℕ) : ForecastTable :=
  let presentTargets := TARGETS.filter (fun t => inputCols.contains t)
  let lastDate := (series.map Prod.fst).getLastD 0
  let idx := future_index lastDate horizon
  { cols := ["date", "moon_phase"] ++ presentTargets
  , dates := idx
  , moonLabels := build_future_moon (series.map Prod.snd) idx
  , values := presentTargets.map (fun t => (t, idx.map (pred t))) }

lemma future_index_length (l : Int) (h : ℕ) : (future_index l h).length = h := by
  simp only [future_index, List.length_map, List.length_range]

lemma future_index_getElem (l : Int) (h : ℕ) (i : ℕ) (hi : i < h) :
    (future_index l h)[i]? = some (l + 1 + (i : Int)) := by
  simp only [future_index, List.getElem?_map, List.getElem?_range hi, Option.map_some']

lemma future_index_pairwise (l : Int) (h : ℕ) :
    List.Pairwise (· < ·) (future_index l h) := by
  refine List.Pairwise.map _ ?_ (List.pairwise_lt_range h)
  intro a b hab
  omega

/-- Claim C1: For every daily historical series (non-empty, consecutive daily
dates, canonical moon-phase labels) and every positive horizon `h`, the
forecast is a table with columns `date`, `moon_phase` and one column per
present target, with exactly `h` rows, strictly increasing dates continuing
the daily frequency one step after the last historical date, and every
row's moon-phase label belongs to the labels observed in the input. -/
theorem forecast_table_shape (pred : String → Int → ℚ) (inputCols : List String)
    (series : List (Int × String)) (h : ℕ)
    (hpos : 0 < h) (hne : series ≠ [])
    (hdaily : List.Chain' (fun p q : Int × String => q.1 = p.1 + 1) series)
    (hcanon : ∀ p ∈ series, p.2 ∈ CANON_FRAC.map Prod.fst) :
    (run_forecast pred inputCols series h).dates.length = h
    ∧ (run_forecast pred inputCols series h).moonLabels.length = h
    ∧ List.Pairwise (· < ·) (run_forecast pred inputCols series h).dates
    ∧ (∀ i : ℕ, i < h →
        (run_forecast pred inputCols series h).dates[i]?
          = some ((series.map Prod.fst).getLastD 0 + 1 + (i : Int)))
    ∧ (∀ lab ∈ (run_forecast pred inputCols series h).moonLabels,
        lab ∈ series.map Prod.snd)
    ∧ (run_forecast pred inputCols series h).cols
        = ["date", "moon_phase"] ++ TARGETS.filter (fun t => inputCols.contains t)
    ∧ (∀ pr ∈ (run_forecast pred inputCols series h).values, pr.2.length = h) := by
  refine ⟨?_, ?_, ?_, ?_, ?_, rfl, ?_⟩
  · exact future_index_length _ h
  · simp only [run_forecast, build_future_moon, List.length_map]
    exact future_index_length _ h
  · exact future_index_pairwise _ h
  · intro i hi
    exact future_index_getElem _ h i hi
  · intro lab hlab
    simp only [run_forecast, build_future_moon, List.mem_map] at hlab
    obtain ⟨d, _, hd⟩ := hlab
    have hdne : (series.map Prod.snd).dedup ≠ [] := by
      intro hnil
      rw [List.dedup_eq_nil] at hnil
      exact hne (by simpa using hnil)
    have hdsub : ∀ a ∈ (series.map Prod.snd).dedup, a ∈ CANON_FRAC.map Prod.fst := by
      intro a ha
      obtain ⟨p, hp, hpa⟩ := List.mem_map.mp (List.mem_dedup.mp ha)
      exact hpa ▸ hcanon p hp
    have := nearest_label_mem (lunar_phase_fraction d) _ hdne hdsub
    rw [hd] at this
    exact List.mem_dedup.mp this
  · intro pr hpr
    simp only [run_forecast, List.mem_map] at hpr
    obtain ⟨t, _, ht⟩ := hpr
    rw [← ht]
    simp only [List.length_map]
    exact future_index_length _ h

/-- Witness for C1: a 3-day daily series with canonical labels and horizon
2 yields the two consecutive next days, labels drawn from the observed set. -/
theorem forecast_table_shape_witness :
    (run_forecast (fun _ _ => 0) TARGETS
        [(10962, "New Moon"), (10963, "Full Moon"), (10964, "Waxing")] 2).dates
      = [10965, 10966]
    ∧ (∀ lab ∈ (run_forecast (fun _ _ => 0) TARGETS
        [(10962, "New Moon"), (10963, "Full Moon"), (10964, "Waxing")] 2).moonLabels,
        lab ∈ ["New Moon", "Full Moon", "Waxing"])
    ∧ (run_forecast (fun _ _ => 0) TARGETS
        [(10962, "New Moon"), (10963, "Full Moon"), (10964, "Waxing")] 2).moonLabels.length = 2 := by
  have h := forecast_table_shape (fun _ _ => 0) TARGETS
    [(10962, "New Moon"), (10963, "Full Moon"), (10964, "Waxing")] 2
    (by decide) (by decide) (by norm_num [List.chain'_cons]) (by decide)
  refine ⟨by with_unfolding_all rfl, ?_, h.2.1⟩
  intro lab hlab
  simpa using h.2.2.2.2.1 lab hlab

/-- Witness for C5 at a concrete input: fraction 0.3 with allowed labels
`{Full Moon, Waxing}` selects `"Waxing"` (anchor 0.31), a member of the
allowed set. -/
theorem nearest_label_minimizes_witness :
    nearest_label_from_training 0.3 ["Full Moon", "Waxing"] ∈ ["Full Moon", "Waxing"]
    ∧ nearest_label_from_training 0.3 ["Full Moon", "Waxing"] = "Waxing"
    ∧ nearest_label_from_training 0.3 [] = "New Moon" := by
  have h := nearest_label_minimizes 0.3 ["Full Moon", "Waxing"] (by norm_num) (by norm_num)
  have h0 := nearest_label_minimizes 0.3 [] (by norm_num) (by norm_num)
  refine ⟨(h.2 (by simp) (by decide)).1, by with_unfolding_all rfl, h0.1 rfl⟩

/-! Section: Coordinate cache token (`data_pipeline.py` / `arima_predict_merged.py`,
`coord_token`) -/

/-- Round-half-to-even, the rounding applied by Python's fixed-precision
float formatting `f"{v:.4f}"` (modelled exactly over `ℚ`). -/
def roundHalfEven (q : ℚ) : Int :=
  if q - (⌊q⌋ : ℚ) < 1 / 2 then ⌊q⌋
  else if 1 / 2 < q - (⌊q⌋ : ℚ) then ⌊q⌋ + 1
  else if Even ⌊q⌋ then ⌊q⌋ else ⌊q⌋ + 1

/-- The scaled integer printed by `f"{v:.4f}"`: the 4-decimal quantization
of `v`. -/
def quant4 (v : ℚ) : Int := roundHalfEven (v * 10000)

/-- Left zero-padding, for fixed-width digit groups. -/
def padLeft (k : ℕ) (s : String) : String :=
  String.mk (List.replicate (k - s.length) '0') ++ s

/-- Rendering `f"{v:.4f}".replace(".", "_")` for a non-negative scaled magnitude. -/
def fmtScaled (n : ℕ) : String :=
  toString (n / 10000) ++ "_" ++ padLeft 4 (toString (n % 10000))

/-- The data a token half encodes: the sign (`"n"` iff `v ≥ 0`) and the
quantized magnitude of `abs v`. -/
def tokenData (v : ℚ) : Bool × ℕ := (decide (0 ≤ v), (quant4 (pyabs v)).toNat)

/-- The inner `q(v)` of `coord_token`: sign prefix plus the 4-decimal
rendering of `abs(v)` with `.` replaced by `_`. -/
def q_enc (v : ℚ) : String :=
  (if 0 ≤ v then "n" else "s") ++ fmtScaled (quant4 (pyabs v)).toNat

/-- Function `coord_token(lat, lon, precision=4)`. -/
def coord_token (lat lon : ℚ) : String :=
  "lat" ++ q_enc lat ++ "_lon" ++ q_enc lon

/-- Modelled from the spec: the decoder of a coordinate cache token.  No
decoder exists in src (only the encoder `coord_token` does); per the spec's
round-trip property ("encoding and decoding a Coordinate through its cache
token at 4-decimal precision recovers the original value within 0.00005
degrees"), the sign prefix and the 4-decimal digit groups that the token
carries are decoded as `±(scaled magnitude / 10^4)`. -/
def decode_mag (sgn : Bool) (n : ℕ) : ℚ :=
  (if sgn then 1 else -1) * ((n : ℚ) / 10000)

lemma roundHalfEven_err (q : ℚ) : |q - (roundHalfEven q : ℚ)| ≤ 1 / 2 := by
  unfold roundHalfEven
  have h0 : 0 ≤ q - (⌊q⌋ : ℚ) := sub_nonneg.mpr (Int.floor_le q)
  have h1 : q - (⌊q⌋ : ℚ) < 1 := by
    have := Int.lt_floor_add_one q
    linarith
  split_ifs with hr1 hr2 hev
  · rw [abs_of_nonneg h0]; linarith
  · rw [abs_of_nonpos (by push_cast; linarith)]
    push_cast
    linarith
  · rw [abs_of_nonneg h0]; linarith
  · rw [abs_of_nonpos (by push_cast; linarith)]
    push_cast
    linarith

lemma quant4_err (v : ℚ) : |v - (quant4 v : ℚ) / 10000| ≤ 0.00005 := by
  have h := roundHalfEven_err (v * 10000)
  have heq : v - (quant4 v : ℚ) / 10000 = (v * 10000 - (quant4 v : ℚ)) / 10000 := by
    ring
  rw [heq, abs_div, abs_of_pos (by norm_num : (0 : ℚ) < 10000)]
  rw [show (0.00005 : ℚ) = (1 / 2) / 10000 by norm_num]
  exact div_le_div_of_nonneg_right h (by norm_num)

lemma roundHalfEven_nonneg (q : ℚ) (hq : 0 ≤ q) : 0 ≤ roundHalfEven q := by
  unfold roundHalfEven
  have h : (0 : Int) ≤ ⌊q⌋ := Int.floor_nonneg.mpr hq
  split_ifs <;> omega

lemma quant4_nonneg (v : ℚ) (hv : 0 ≤ v) : 0 ≤ quant4 v :=
  roundHalfEven_nonneg _ (by positivity)

/-- Decoding the token data recovers the value to within 0.00005. -/
lemma decode_tokenData_err (v : ℚ) :
    |decode_mag (tokenData v).1 (tokenData v).2 - v| ≤ 0.00005 := by
  unfold decode_mag tokenData pyabs
  simp only [decide_eq_true_eq]
  by_cases hv : 0 ≤ v
  · rw [if_neg (not_lt.mpr hv), if_pos hv, one_mul,
      show (((quant4 v).toNat : ℕ) : ℚ) = ((quant4 v : Int) : ℚ) from
        by exact_mod_cast Int.toNat_of_nonneg (quant4_nonneg v hv),
      abs_sub_comm]
    exact quant4_err v
  · have hlt : v < 0 := not_le.mp hv
    rw [if_pos hlt, if_neg hv, neg_one_mul,
      show (((quant4 (-v)).toNat : ℕ) : ℚ) = ((quant4 (-v) : Int) : ℚ) from
        by exact_mod_cast Int.toNat_of_nonneg (quant4_nonneg (-v) (by linarith))]
    have heq : -((quant4 (-v) : ℚ) / 10000) - v = (-v) - (quant4 (-v) : ℚ) / 10000 := by
      ring
    rw [heq]
    exact quant4_err (-v)

lemma q_enc_congr (v w : ℚ) (h : tokenData v = tokenData w) : q_enc v = q_enc w := by
  unfold tokenData at h
  rw [Prod.mk.injEq] at h
  have hiff : (0 ≤ v) ↔ (0 ≤ w) := decide_eq_decide.mp h.1
  unfold q_enc
  by_cases hv : 0 ≤ v
  · rw [if_pos hv, if_pos (hiff.mp hv), h.2]
  · rw [if_neg hv, if_neg (fun hw => hv (hiff.mpr hw)), h.2]

/-- Claim C9: For every coordinate in range, decoding the cache token's
content (sign prefix and 4-decimal digit groups) recovers latitude and
longitude each within 0.00005 degrees, and the token string is identical
across calls for the same quantized point. -/
theorem coord_token_roundtrip (lat lon : ℚ)
    (h1 : -90 ≤ lat) (h2 : lat ≤ 90) (h3 : -180 ≤ lon) (h4 : lon ≤ 180) :
    |decode_mag (tokenData lat).1 (tokenData lat).2 - lat| ≤ 0.00005
    ∧ |decode_mag (tokenData lon).1 (tokenData lon).2 - lon| ≤ 0.00005
    ∧ (∀ lat2 lon2, tokenData lat2 = tokenData lat → tokenData lon2 = tokenData lon →
        coord_token lat2 lon2 = coord_token lat lon) := by
  refine ⟨decode_tokenData_err lat, decode_tokenData_err lon, ?_⟩
  intro lat2 lon2 hlat hlon
  unfold coord_token
  rw [q_enc_congr lat2 lat hlat, q_enc_congr lon2 lon hlon]

/-- Witness for C9 at (50.4501, 30.5234): the token is
`latn50_4501_lonn30_5234`, quantization is exact, and the decoded values
are the originals. -/
theorem coord_token_roundtrip_witness :
    coord_token 50.4501 30.5234 = "latn50_4501_lonn30_5234"
    ∧ |decode_mag (tokenData (50.4501 : ℚ)).1 (tokenData (50.4501 : ℚ)).2 - 50.4501| ≤ 0.00005
    ∧ |decode_mag (tokenData (30.5234 : ℚ)).1 (tokenData (30.5234 : ℚ)).2 - 30.5234| ≤ 0.00005 := by
  have h := coord_token_roundtrip 50.4501 30.5234
    (by norm_num) (by norm_num) (by norm_num) (by norm_num)
  exact ⟨by with_unfolding_all rfl, h.1, h.2.1⟩

/-! Section: Coordinate resolver (`test.py`)

`haversine` uses transcendental functions; Python floats are modelled here
by real numbers (this part of the embedding is therefore necessarily
non-executable).  The persisted store `saved_coords.json` is modelled by
its three observable states: file absent, file present but not valid JSON
(`json.load` raises), and a well-formed list of coordinates. -/

noncomputable section

/-- Conversion `math.radians`. -/
def radians (x : ℝ) : ℝ := x * Real.pi / 180

/-- Function `haversine(lat1, lon1, lat2, lon2)`: great-circle distance in km,
Earth radius 6371. -/
def haversine (lat1 lon1 lat2 lon2 : ℝ) : ℝ :=
  let rlat1 := radians lat1
  let rlon1 := radians lon1
  let rlat2 := radians lat2
  let rlon2 := radians lon2
  let dlat := rlat2 - rlat1
  let dlon := rlon2 - rlon1
  let a := Real.sin (dlat / 2) ^ 2 +
    Real.cos rlat1 * Real.cos rlat2 * Real.sin (dlon / 2) ^ 2
  let c := 2 * Real.arcsin (Real.sqrt a)
  6371 * c

/-- Constant `MAX_DISTANCE_KM = 20`. -/
def MAX_DISTANCE_KM : ℝ := 20

/-- Observable states of the persisted `saved_coords.json`. -/
inductive CoordStore where
  | absent
  | corrupt
  | present (coords : List (ℝ × ℝ))

/-- The `for c in coords` loop of `find_existing`: returns the first stored
coordinate within `MAX_DISTANCE_KM`, else `(False, (lat, lon))`. -/
def findLoop : List (ℝ × ℝ) → ℝ → ℝ → Bool × ℝ × ℝ
  | [], lat, lon => (false, lat, lon)
  | c :: rest, lat, lon =>
    if haversine lat lon c.1 c.2 ≤ MAX_DISTANCE_KM then (true, c.1, c.2)
    else findLoop rest lat lon

/-- Function `find_existing(lat, lon)`: absent file means no coordinate exists;
a file that exists but cannot be parsed makes `json.load` raise
(modelled as `Except.error`); otherwise the loop above. -/
def find_existing (store : CoordStore) (lat lon : ℝ) :
    Except String (Bool × ℝ × ℝ) :=
  match store with
  | .absent => Except.ok (false, lat, lon)
  | .corrupt => Except.error "JSONDecodeError"
  | .present coords => Except.ok (findLoop coords lat lon)

end

lemma findLoop_of_all_far (lat lon : ℝ) :
    ∀ coords : List (ℝ × ℝ),
    (∀ c ∈ coords, MAX_DISTANCE_KM < haversine lat lon c.1 c.2) →
    findLoop coords lat lon = (false, lat, lon) := by
  intro coords
  induction coords with
  | nil => intro _; rfl
  | cons hd tl ih =>
    intro hfar
    have h1 : ¬ haversine lat lon hd.1 hd.2 ≤ MAX_DISTANCE_KM :=
      not_le.mpr (hfar hd (List.mem_cons_self _ _))
    simp only [findLoop, if_neg h1]
    exact ih fun c hc => hfar c (List.mem_cons_of_mem _ hc)

lemma findLoop_of_close (lat lon : ℝ) :
    ∀ coords : List (ℝ × ℝ),
    (∃ c ∈ coords, haversine lat lon c.1 c.2 ≤ MAX_DISTANCE_KM) →
    ∃ c, c ∈ coords ∧ haversine lat lon c.1 c.2 ≤ MAX_DISTANCE_KM ∧
      findLoop coords lat lon = (true, c.1, c.2) := by
  intro coords
  induction coords with
  | nil => intro h; simp at h
  | cons hd tl ih =>
    intro hex
    by_cases h1 : haversine lat lon hd.1 hd.2 ≤ MAX_DISTANCE_KM
    · exact ⟨hd, List.mem_cons_self _ _, h1, by simp only [findLoop, if_pos h1]⟩
    · have htl : ∃ c ∈ tl, haversine lat lon c.1 c.2 ≤ MAX_DISTANCE_KM := by
        obtain ⟨c, hc, hle⟩ := hex
        rcases List.mem_cons.mp hc with hc1 | hc2
        · exact absurd hle (hc1 ▸ h1)
        · exact ⟨c, hc2, hle⟩
      obtain ⟨c, hc, hle, hres⟩ := ih htl
      exact ⟨c, List.mem_cons_of_mem _ hc, hle,
        by simp only [findLoop, if_neg h1]; exact hres⟩

lemma haversine_self (lat lon : ℝ) : haversine lat lon lat lon = 0 := by
  unfold haversine
  norm_num [Real.sqrt_zero, Real.arcsin_zero]

/-- Claim C3: `find_existing`: an absent or empty store yields
`(false, (lat, lon))`; if some stored coordinate is within 20 km
(equivalently, the minimum haversine distance is ≤ 20 km) the result is
`(true, c)` for a stored coordinate `c` within 20 km (the first match, not
the query point); if all stored coordinates are farther than 20 km the
result is `(false, (lat, lon))`. -/
theorem find_existing_matches (lat lon : ℝ) (coords : List (ℝ × ℝ)) :
    find_existing CoordStore.absent lat lon = Except.ok (false, lat, lon)
    ∧ find_existing (CoordStore.present []) lat lon = Except.ok (false, lat, lon)
    ∧ ((∀ c ∈ coords, MAX_DISTANCE_KM < haversine lat lon c.1 c.2) →
        find_existing (CoordStore.present coords) lat lon
          = Except.ok (false, lat, lon))
    ∧ ((∃ c ∈ coords, haversine lat lon c.1 c.2 ≤ MAX_DISTANCE_KM) →
        ∃ c, c ∈ coords ∧ haversine lat lon c.1 c.2 ≤ MAX_DISTANCE_KM ∧
          find_existing (CoordStore.present coords) lat lon
            = Except.ok (true, c.1, c.2)) := by
  refine ⟨rfl, rfl, ?_, ?_⟩
  · intro hfar
    simp only [find_existing]
    rw [findLoop_of_all_far lat lon coords hfar]
  · intro hex
    obtain ⟨c, hc, hle, hres⟩ := findLoop_of_close lat lon coords hex
    exact ⟨c, hc, hle, by simp only [find_existing]; rw [hres]⟩

/-- Witness for C3: querying the exact stored point (50.4501, 30.5234)
(distance 0 ≤ 20 km) returns `found = true` with the stored coordinate;
an empty store misses. -/
theorem find_existing_matches_witness :
    (∃ c, c ∈ [((50.4501 : ℝ), (30.5234 : ℝ))]
      ∧ haversine 50.4501 30.5234 c.1 c.2 ≤ MAX_DISTANCE_KM
      ∧ find_existing (CoordStore.present [((50.4501 : ℝ), (30.5234 : ℝ))])
          50.4501 30.5234 = Except.ok (true, c.1, c.2))
    ∧ find_existing (CoordStore.present []) (50.4501 : ℝ) (30.5234 : ℝ)
        = Except.ok (false, 50.4501, 30.5234) := by
  have h := find_existing_matches (50.4501 : ℝ) (30.5234 : ℝ)
    [((50.4501 : ℝ), (30.5234 : ℝ))]
  refine ⟨h.2.2.2 ?_, h.2.1⟩
  refine ⟨((50.4501 : ℝ), (30.5234 : ℝ)), List.mem_singleton_self _, ?_⟩
  rw [haversine_self]
  norm_num [MAX_DISTANCE_KM]

/-- Claim C8, counterexample: A corrupt (unparsable) persisted store does make
coordinate resolution fail: `json.load` raises, contradicting the claim
that any store content degrades to an empty-store miss. -/
theorem find_existing_corrupt_raises :
    find_existing CoordStore.corrupt 0 0 = Except.error "JSONDecodeError" := rfl

/-- Claim C8, amended: An absent store file is treated as empty (always-miss,
never fatal), but a store that exists with corrupt or unreadable content
raises the JSON decoding error — resolution fails rather than degrading. -/
theorem find_existing_absent_ok_corrupt_error (lat lon : ℝ) :
    find_existing CoordStore.absent lat lon = Except.ok (false, lat, lon)
    ∧ find_existing CoordStore.corrupt lat lon = Except.error "JSONDecodeError" :=
  ⟨rfl, rfl⟩

/-! Section: Horizon arithmetic and CLI horizon resolution
(`arima_predict_merged.py`: `compute_asof_and_horizon`, `main` lines 169–225;
`data_pipeline.py`: `compute_effective_horizon`) -/

/-- Function `compute_asof_and_horizon(target, lag_days)`: `date.today()` is passed
explicitly as the day number `today`; returns `(asof, horizon)`. -/
def compute_asof_and_horizon (today target lag_days : Int) : Int × Int :=
  let asof := today - lag_days
  (asof, target - asof)

/-- The target-date path of `main`: compute asof/horizon and raise
`SystemExit "Target too close"` when `horizon <= 0`. -/
def horizon_from_date (today target lag_days : Int) : Except String (Int × Int) :=
  let p := compute_asof_and_horizon today target lag_days
  if p.2 ≤ 0 then Except.error "Target too close"
  else Except.ok p

/-- The command-line arguments of `arima_predict_merged.py` relevant to
horizon resolution. -/
structure CliArgs where
  csv : Option String
  horizon : Option Int
  activity : Option String
  lat : Option ℚ
  lon : Option ℚ
  targetDate : Option Int
  lagDays : Int

/-- Horizon resolution of `main` (lines 169–225): Case A (direct `--csv`)
prefers an explicit `--horizon` and otherwise derives it from `--date`;
Case B (dataset mode) requires activity/lat/lon, then derives from `--date`
if given, else takes the explicit `--horizon`.  The final `match` arm is
unreachable because of the preceding guard (Python would raise `TypeError`
on `int(None)`). -/
def resolve_horizon (a : CliArgs) (today : Int) (csvExists : Bool) : Except String Int :=
  match a.csv with
  | some _ =>
    if csvExists = false then Except.error "csv not found"
    else
      match a.horizon with
      | some h => Except.ok h
      | none =>
        match a.targetDate with
        | none => Except.error "With csv you must provide horizon or date."
        | some t =>
          match horizon_from_date today t a.lagDays with
          | Except.error e => Except.error e
          | Except.ok p => Except.ok p.2
  | none =>
    if a.activity = none ∨ a.lat = none ∨ a.lon = none then
      Except.error "Missing required args for dataset mode"
    else if a.targetDate = none ∧ a.horizon = none then
      Except.error "Provide date to compute N+lag or explicit horizon."
    else
      match a.targetDate with
      | some t =>
        match horizon_from_date today t a.lagDays with
        | Except.error e => Except.error e
        | Except.ok p => Except.ok p.2
      | none =>
        match a.horizon with
        | some h => Except.ok h
        | none => Except.error "TypeError"

/-- Claim C2: `compute_asof_and_horizon` returns `asof = today − lag_days`
and `horizon = target − asof`; the enclosing call fails with the horizon
error iff `horizon ≤ 0`; with `lag_days = 3`, `today = 2025-01-10`,
`target = 2025-01-10` yields `asof = 2025-01-07` and `horizon = 3`, while
`target = 2025-01-05` fails. -/
theorem horizon_rule (today target lag_days : Int) :
    compute_asof_and_horizon today target lag_days
      = (today - lag_days, target - (today - lag_days))
    ∧ ((∃ p, horizon_from_date today target lag_days = Except.ok p)
        ↔ 0 < target - (today - lag_days))
    ∧ (horizon_from_date today target lag_days = Except.error "Target too close"
        ↔ target - (today - lag_days) ≤ 0)
    ∧ compute_asof_and_horizon (daysFromCivil ⟨2025, 1, 10⟩) (daysFromCivil ⟨2025, 1, 10⟩) 3
        = (daysFromCivil ⟨2025, 1, 7⟩, 3)
    ∧ horizon_from_date (daysFromCivil ⟨2025, 1, 10⟩) (daysFromCivil ⟨2025, 1, 5⟩) 3
        = Except.error "Target too close" := by
  refine ⟨rfl, ?_, ?_, by decide, by rfl⟩
  · unfold horizon_from_date compute_asof_and_horizon
    by_cases hc : target - (today - lag_days) ≤ 0
    · simp [hc]
      omega
    · simp [hc]
      omega
  · unfold horizon_from_date compute_asof_and_horizon
    by_cases hc : target - (today - lag_days) ≤ 0
    · simp [hc]
    · simp [hc]

/-- Claim C10: An explicitly supplied horizon is never checked for
positivity: for every `h ≤ 0`, both the direct-CSV path and the
dataset-mode path resolve to `ok h`, while the only rejection guard sits
on the target-date path. -/
theorem explicit_horizon_unchecked (h : Int) (hle : h ≤ 0) (today lag : Int)
    (csvName act : String) (la lo : ℚ) (t : Int) :
    resolve_horizon ⟨some csvName, some h, none, none, none, none, lag⟩ today true
      = Except.ok h
    ∧ resolve_horizon ⟨none, some h, some act, some la, some lo, none, lag⟩ today true
      = Except.ok h
    ∧ (t - (today - lag) ≤ 0 →
        resolve_horizon ⟨none, none, some act, some la, some lo, some t, lag⟩ today true
          = Except.error "Target too close") := by
  refine ⟨rfl, ?_, ?_⟩
  · simp [resolve_horizon]
  · intro ht
    simp [resolve_horizon, horizon_from_date, compute_asof_and_horizon, ht]

/-- Witness for C10: horizon `−1` is accepted on both explicit-horizon
paths, and a too-early target date is rejected on the date path. -/
theorem explicit_horizon_unchecked_witness :
    resolve_horizon ⟨some "merged.csv", some (-1), none, none, none, none, 3⟩ 0 true
      = Except.ok (-1)
    ∧ resolve_horizon ⟨none, some (-1), some "fishing", some 1, some 2, none, 3⟩ 0 true
      = Except.ok (-1)
    ∧ resolve_horizon ⟨none, none, some "fishing", some 1, some 2, some (-5), 3⟩ 0 true
      = Except.error "Target too close" := by
  have h := explicit_horizon_unchecked (-1) (by norm_num) 0 3 "merged.csv" "fishing" 1 2 (-5)
  exact ⟨h.1, h.2.1, h.2.2 (by norm_num)⟩

/-! Section: Dataset cache (`data_pipeline.py`, `ensure_dataset`)

The filesystem is modelled by the map from dataset-directory paths to the
content of their `merged.csv` (an opaque series id `ℕ`), plus the list of
manifest writes and a fetch-call counter.  The ingestion parser subprocess
(`NasaApp.ML.Fishing_parse_data_for_year`, invoked with `check=True`) is
modelled by a pure function `fetch` that produces the merged series it
writes into the dataset directory, per the ingestion contract. -/

/-- Date part of `f"asof_{asof:%Y%m%d}"` (zero-padded). -/
def fmt_asof (d : CivilDate) : String :=
  padLeft 4 (toString d.year) ++ padLeft 2 (toString d.month) ++ padLeft 2 (toString d.day)

/-- Function `dataset_dir(activity, lat, lon, asof)`:
`<root>/<activity>/<coord_token>/asof_YYYYMMDD`. -/
def dataset_dir (root activity : String) (lat lon : ℚ) (asof : CivilDate) : String :=
  root ++ "/" ++ activity ++ "/" ++ coord_token lat lon ++ "/asof_" ++ fmt_asof asof

/-- Observable state of the dataset store. -/
structure PipeState where
  merged : List (String × ℕ)
  manifestWrites : List String
  fetchCalls : ℕ
deriving DecidableEq

/-- Function `ensure_dataset(activity, lat, lon, asof)`: derive the dataset dir; if
`merged.csv` is absent there, invoke the parser (one fetch) which writes
the merged series; then (re)write `manifest.json`; return the dir. -/
def ensure_dataset (fetch : ℚ → ℚ → CivilDate → ℕ) (root : String) (st : PipeState)
    (activity : String) (lat lon : ℚ) (asof : CivilDate) : PipeState × String :=
  let ddir := dataset_dir root activity lat lon asof
  let st1 :=
    match st.merged.lookup ddir with
    | some _ => st
    | none =>
      { merged := (ddir, fetch lat lon asof) :: st.merged
      , manifestWrites := st.manifestWrites
      , fetchCalls := st.fetchCalls + 1 }
  ({ merged := st1.merged
   , manifestWrites := ddir :: st1.manifestWrites
   , fetchCalls := st1.fetchCalls }, ddir)

lemma ensure_dataset_lookup (fetch : ℚ → ℚ → CivilDate → ℕ) (root : String)
    (st : PipeState) (activity : String) (lat lon : ℚ) (asof : CivilDate) :
    ∃ s, ((ensure_dataset fetch root st activity lat lon asof).1).merged.lookup
      (dataset_dir root activity lat lon asof) = some s := by
  cases h : st.merged.lookup (dataset_dir root activity lat lon asof) with
  | some s => exact ⟨s, by simp [ensure_dataset, h]⟩
  | none => exact ⟨fetch lat lon asof, by simp [ensure_dataset, h, List.lookup]⟩

/-- Claim C6: Calling `ensure_dataset` twice with the same
(activity, coordinate, asof) fetches at most once in total: the second
call finds `merged.csv` at the key-derived path, performs no fetch, and
leaves the stored merged series unchanged; and a first call that already
finds the series performs no fetch and returns it unchanged. -/
theorem ensure_dataset_fetch_once (fetch : ℚ → ℚ → CivilDate → ℕ) (root : String)
    (st : PipeState) (activity : String) (lat lon : ℚ) (asof : CivilDate) :
    ((ensure_dataset fetch root
        (ensure_dataset fetch root st activity lat lon asof).1
        activity lat lon asof).1).fetchCalls ≤ st.fetchCalls + 1
    ∧ ((ensure_dataset fetch root
        (ensure_dataset fetch root st activity lat lon asof).1
        activity lat lon asof).1).fetchCalls
      = ((ensure_dataset fetch root st activity lat lon asof).1).fetchCalls
    ∧ ((ensure_dataset fetch root
        (ensure_dataset fetch root st activity lat lon asof).1
        activity lat lon asof).1).merged
      = ((ensure_dataset fetch root st activity lat lon asof).1).merged
    ∧ (ensure_dataset fetch root
        (ensure_dataset fetch root st activity lat lon asof).1
        activity lat lon asof).2
      = (ensure_dataset fetch root st activity lat lon asof).2
    ∧ (∀ s, st.merged.lookup (dataset_dir root activity lat lon asof) = some s →
        ((ensure_dataset fetch root st activity lat lon asof).1).merged = st.merged
        ∧ ((ensure_dataset fetch root st activity lat lon asof).1).fetchCalls
            = st.fetchCalls) := by
  obtain ⟨s1, hs1⟩ := ensure_dataset_lookup fetch root st activity lat lon asof
  have hsecond :
      (ensure_dataset fetch root
        (ensure_dataset fetch root st activity lat lon asof).1
        activity lat lon asof).1
      = { merged := ((ensure_dataset fetch root st activity lat lon asof).1).merged
        , manifestWrites := dataset_dir root activity lat lon asof ::
            ((ensure_dataset fetch root st activity lat lon asof).1).manifestWrites
        , fetchCalls := ((ensure_dataset fetch root st activity lat lon asof).1).fetchCalls } := by
    conv in ensure_dataset fetch root (ensure_dataset fetch root st activity lat lon asof).1
        activity lat lon asof => rw [ensure_dataset]
    rw [hs1]
  have hfirstCalls :
      ((ensure_dataset fetch root st activity lat lon asof).1).fetchCalls ≤ st.fetchCalls + 1 := by
    cases h : st.merged.lookup (dataset_dir root activity lat lon asof) <;>
      simp [ensure_dataset, h]
  refine ⟨?_, ?_, ?_, ?_, ?_⟩
  · rw [hsecond]
    exact hfirstCalls
  · rw [hsecond]
  · rw [hsecond]
  · rfl
  · intro s hs
    constructor <;> simp [ensure_dataset, hs]

/-- Witness for C6: with the merged series already stored under the
key-derived path, one call performs no fetch and keeps the store, and a
second call after a first keeps the fetch count at the first call's. -/
theorem ensure_dataset_fetch_once_witness :
    ((ensure_dataset (fun _ _ _ => 7) "data"
        ⟨[("data/fishing/latn1_0000_lonn2_0000/asof_20250107", 5)], [], 0⟩
        "fishing" 1 2 ⟨2025, 1, 7⟩).1).merged
      = [("data/fishing/latn1_0000_lonn2_0000/asof_20250107", 5)]
    ∧ ((ensure_dataset (fun _ _ _ => 7) "data"
        ⟨[("data/fishing/latn1_0000_lonn2_0000/asof_20250107", 5)], [], 0⟩
        "fishing" 1 2 ⟨2025, 1, 7⟩).1).fetchCalls = 0
    ∧ ((ensure_dataset (fun _ _ _ => 7) "data"
        (ensure_dataset (fun _ _ _ => 7) "data" ⟨[], [], 0⟩ "fishing" 1 2 ⟨2025, 1, 7⟩).1
        "fishing" 1 2 ⟨2025, 1, 7⟩).1).fetchCalls ≤ 1 := by
  have h1 := ensure_dataset_fetch_once (fun _ _ _ => 7) "data"
    ⟨[("data/fishing/latn1_0000_lonn2_0000/asof_20250107", 5)], [], 0⟩
    "fishing" 1 2 ⟨2025, 1, 7⟩
  have h2 := ensure_dataset_fetch_once (fun _ _ _ => 7) "data"
    ⟨[], [], 0⟩ "fishing" 1 2 ⟨2025, 1, 7⟩
  have hkey : dataset_dir "data" "fishing" 1 2 ⟨2025, 1, 7⟩
      = "data/fishing/latn1_0000_lonn2_0000/asof_20250107" := by
    with_unfolding_all rfl
  obtain ⟨hm, hc⟩ := h1.2.2.2.2 5 (by rw [hkey]; with_unfolding_all rfl)
  exact ⟨hm, hc, h2.1⟩

/-! Section: Orchestrator (`main_fishing.py`)

The orchestrator is present in src twice: `Backend/main_fishing.py`
(`__main__`, lines 12-26, resolving through `test.py`'s `find_existing`)
and `NasaApp/ML/main_fishing.py` (`run`, lines 47-62, same control flow).
Both resolve the coordinate, build the year dataset on a miss, and then
run the forecast/evaluation steps; no code in the repository ever writes
the persisted coordinate store `saved_coords.json`, so the store passes
through every call unchanged.  The ARIMA and LLM steps are elided here:
they do not touch the coordinate store. -/

/-- Observable outcome of one orchestrator call: the coordinate actually
used, whether the year-dataset build (`Fishing_parse_data_for_year.main`)
was invoked, and the coordinate store after the call. -/
structure OrchResult where
  usedCoord : ℝ × ℝ
  parsed : Bool
  store : CoordStore

noncomputable section

/-- The orchestrator `run` of `main_fishing.py`:
`flag, coord = find_existing(lat, lon)`; if no close coordinate was found
(`flag == False`), build the dataset for the resolved coordinate; the
persisted store is only read, never written. -/
def run (store : CoordStore) (lat lon : ℝ) : Except String OrchResult :=
  match find_existing store lat lon with
  | Except.error e => Except.error e
  | Except.ok (flag, c) => Except.ok ⟨c, !flag, store⟩

end

/-- Claim C7, counterexample: at the literal input of
`Backend/main_fishing.py` (lat 55, lon 25) with an empty known-coordinate
store, the call takes the cache-miss path and builds the dataset
(`parsed = true`), yet returns with the store still empty: the new
coordinate was never registered into the persisted set. -/
theorem orchestrator_registration_counterexample :
    run (CoordStore.present []) 55 25
      = Except.ok ⟨((55 : ℝ), (25 : ℝ)), true, CoordStore.present []⟩ := rfl

/-- Claim C7, amended: on a coordinate cache-miss the orchestrator builds
the dataset for the resolved coordinate, but it registers nothing: the
persisted known-coordinate set is returned unchanged by every call (no
code in the repository writes it), and the dataset build is invoked
exactly when resolution misses. -/
theorem orchestrator_never_registers (store : CoordStore) (lat lon : ℝ) :
    (∀ r, run store lat lon = Except.ok r → r.store = store)
    ∧ (∀ flag c, find_existing store lat lon = Except.ok (flag, c) →
        run store lat lon = Except.ok ⟨c, !flag, store⟩) := by
  constructor
  · intro r hr
    unfold run at hr
    cases hfe : find_existing store lat lon with
    | error e => rw [hfe] at hr; exact absurd hr (by simp)
    | ok p =>
      rw [hfe] at hr
      have : (⟨p.2, !p.1, store⟩ : OrchResult) = r := by
        exact Except.ok.inj hr
      rw [← this]
  · intro flag c hfe
    unfold run
    rw [hfe]

/-- Witness for C7 (amended) at the source's literal input (55, 25) with an
empty store: the miss path builds the dataset and hands the store back
unchanged, with no coordinate registered. -/
theorem orchestrator_never_registers_witness :
    (⟨((55 : ℝ), (25 : ℝ)), true, CoordStore.present []⟩ : OrchResult).store
      = CoordStore.present []
    ∧ run (CoordStore.present []) 55 25
        = Except.ok ⟨((55 : ℝ), (25 : ℝ)), true, CoordStore.present []⟩ := by
  have h := orchestrator_never_registers (CoordStore.present []) 55 25
  exact ⟨h.1 ⟨((55 : ℝ), (25 : ℝ)), true, CoordStore.present []⟩ rfl,
    h.2 false ((55 : ℝ), (25 : ℝ)) rfl⟩

end NasaChallenge
